import Mathlib

set_option maxHeartbeats 1000000
set_option maxRecDepth 10000

/-!
Verification development for the ylog logging library.

The definitions below are a shallow embedding of the Go sources:
pure string formatting is embedded as Lean functions on `String`,
the stateful rotating file sink (`RotateLogger`) is embedded as explicit
state passing, and its interactions with the operating system
(`os.OpenFile`, `os.Stat`, `os.MkdirAll`, `File.Write`) are embedded as
result-valued parameters supplied by the caller.  Machine integers
(`int32` log-file ids, `int64` byte counters) are embedded as `Int` with
explicit wrap-around applied at the arithmetic operations the source
performs on them.
-/

namespace Ylog

/-- Go error values, represented by their message text. -/
abbrev GoError := String

/-- Decimal digit character, as produced by Go's integer formatting. -/
def digitChar (d : Nat) : Char := Char.ofNat (48 + d)

/-- Fuel-based most-significant-first decimal digit list of a natural
number, the digit sequence printed by Go's verb %d for nonnegative
arguments.  The fuel only bounds recursion depth; any fuel at least the
digit count gives the full representation. -/
def natReprAux : Nat → Nat → List Char
  | 0, _ => []
  | fuel + 1, n =>
    if n < 10 then [digitChar n] else natReprAux fuel (n / 10) ++ [digitChar (n % 10)]

/-- Decimal rendering of a natural number (Go's fmt verb %d on a
nonnegative value). -/
def natRepr (n : Nat) : String := ⟨natReprAux (n + 1) n⟩

/-- Go's fmt verb %d on a machine integer: a minus sign followed by the
decimal digits when negative. -/
def intRepr (i : Int) : String := if i < 0 then "-" ++ natRepr i.natAbs else natRepr i.toNat

/-- Zero padding of a rendered number to a minimum width, as Go's fmt
verb %0Nd does: when the rendering is already at least N characters long
nothing is prepended. -/
def padGo (w : Nat) (s : String) : String := String.mk (List.replicate (w - s.length) '0') ++ s

/-- Go's fmt.Sprintf applied to the verb %0Nd and a nonnegative value. -/
def pad0 (w n : Nat) : String := padGo w (natRepr n)

/-- A wall-clock instant, the fields of Go's time.Time that the library
reads: Year, Month, Day, Hour, Minute, Second, Nanosecond. -/
structure GoTime where
  year : Nat
  month : Nat
  day : Nat
  hour : Nat
  minute : Nat
  second : Nat
  nanosec : Nat
deriving DecidableEq

/-! Log levels, from level.go (src/unnamed/part_007).  Go declares
`type LogLevel int32` with six iota constants; we embed the level type
as `Int` carrying the constants' values. -/

/-- Level constant TRACE (iota value 0). -/
def TRACE : Int := 0

/-- Level constant DEBUG (iota value 1). -/
def DEBUG : Int := 1

/-- Level constant WARN (iota value 2). -/
def WARN : Int := 2

/-- Level constant ERROR (iota value 3). -/
def ERROR : Int := 3

/-- Level constant INFO (iota value 4). -/
def INFO : Int := 4

/-- Level constant FATAL (iota value 5). -/
def FATAL : Int := 5

/-- LogLevel.LogLevelName from level.go: a switch over the six level
constants, falling through to "unknown". -/
def LogLevelName (level : Int) : String :=
  if level = TRACE then "TRACE"
  else if level = DEBUG then "DEBUG"
  else if level = WARN then "WARN"
  else if level = ERROR then "ERROR"
  else if level = INFO then "INFO"
  else if level = FATAL then "FATAL"
  else "unknown"

/-- LogLevelMap from level.go: the name-to-level lookup table, embedded
as a lookup function returning `none` for keys absent from the map. -/
def LogLevelMap (name : String) : Option Int :=
  if name = "TRACE" then some TRACE
  else if name = "DEBUG" then some DEBUG
  else if name = "WARN" then some WARN
  else if name = "ERROR" then some ERROR
  else if name = "INFO" then some INFO
  else if name = "FATAL" then some FATAL
  else none

/-- Index of the last '/' in a character list, or -1 when there is none:
strings.LastIndexByte(file, '/') on the byte level ('/' is a single-byte
code point, so byte index and character index agree on its occurrences). -/
def lastSlashIdx : List Char → Int
  | [] => -1
  | c :: cs =>
    if lastSlashIdx cs ≥ 0 then lastSlashIdx cs + 1
    else if c = '/' then 0 else -1

/-- The Go slice file[offset+1:] where offset is
strings.LastIndexByte(file, '/'): everything after the last '/', or the
whole string when it contains none. -/
def goBasename (file : String) : String :=
  String.mk (file.data.drop (lastSlashIdx file.data + 1).toNat)

/-- formatHeader from format.go (src/unnamed/part_006): builds the
record prefix YYYYMMDD HH:MM:SS.UUUUUU|file:line|func| with the
two Sprintf calls "%04d%02d%02d" and " %02d:%02d:%02d.%06d|",
the file reduced via strings.LastIndexByte + slicing, and the line
rendered with verb %d. -/
def formatHeader (t : GoTime) (file : String) (line : Int) (fn : String) : String :=
  pad0 4 t.year ++ pad0 2 t.month ++ pad0 2 t.day
    ++ " " ++ pad0 2 t.hour ++ ":" ++ pad0 2 t.minute ++ ":" ++ pad0 2 t.second
    ++ "." ++ pad0 6 (t.nanosec / 1000) ++ "|"
    ++ goBasename file ++ ":" ++ intRepr line ++ "|" ++ fn ++ "|"

/-- Wrap-around of Go int32 arithmetic (two's complement). -/
def wrap32 (n : Int) : Int := (n + 2 ^ 31) % 2 ^ 32 - 2 ^ 31

/-- Wrap-around of Go int64 arithmetic (two's complement). -/
def wrap64 (n : Int) : Int := (n + 2 ^ 63) % 2 ^ 64 - 2 ^ 63

/-- Default log file size limit from rotate_logger.go: 512 MiB. -/
def DEFAULT_LOG_FILE_SIZE : Int := 512 * 1024 * 1024

/-- Result of os.OpenFile with flags O_CREATE, O_WRONLY, O_APPEND, as
observed by createFile: either the open succeeded — and the follow-up
File.Stat either reported a size or errored (its error is ignored) — or
the open itself errored. -/
inductive OpenResult where
  | ok (statSize : Option Int)
  | err (e : GoError)
deriving DecidableEq

/-- Result of os.Stat on a candidate file path, as consumed by the scan
in NewRotateLogger: the file exists, the error satisfies os.IsNotExist,
or some other stat error occurred. -/
inductive StatResult where
  | found
  | notExist
  | err (e : GoError)
deriving DecidableEq

/-- State of a RotateLogger from rotate_logger.go (src/unnamed/part_000).
The os.File handle f is embedded as the path of the currently open file
(`none` for Go's nil handle); the scratch buffer buf is rebuilt from
scratch on every Output call (its capacity-reuse branch only affects
allocation, never content) so it carries no inter-call state and is not a
field here, and the header-option flags field only feeds the flag-aware
formatter variant, which none of the examined claims touch. -/
structure RotateLogger where
  logDir : String
  level : Int
  logSizeLimit : Int
  f : Option String
  fname : String
  nbytes : Int
  fid : Int
deriving DecidableEq

/-- filepath.Join for a clean, nonempty directory and a relative name. -/
def joinPath (dir name : String) : String := dir ++ "/" ++ name

/-- The bucket part of getLogFileName:
Sprintf("%04d%02d%02d%02d.log", year, month, day, hour). -/
def logBucketName (t : GoTime) : String :=
  pad0 4 t.year ++ pad0 2 t.month ++ pad0 2 t.day ++ pad0 2 t.hour ++ ".log"

/-- getLogFileName from rotate_logger.go: the bucket name, plus the
suffix "." ++ id appended when id > 0. -/
def getLogFileName (t : GoTime) (id : Int) : String :=
  if id > 0 then logBucketName t ++ "." ++ intRepr id else logBucketName t

/-- The file name createFile derives from l.fname and l.fid: the suffix
"." ++ fid is appended exactly when fid > 0. -/
def fileNameOf (l : RotateLogger) : String :=
  if l.fid > 0 then l.fname ++ "." ++ intRepr l.fid else l.fname

/-- The full path createFile opens. -/
def targetPath (l : RotateLogger) : String := joinPath l.logDir (fileNameOf l)

/-- RotateLogger.createFile: open the target path in create-or-append
mode.  On an open error the handle field is the nil returned by
os.OpenFile and the error is returned; on success the size reported by
File.Stat seeds the byte counter, and a Stat error is ignored, leaving
the counter as it was. -/
def createFile (l : RotateLogger) (openFile : String → OpenResult) :
    RotateLogger × Option GoError :=
  match openFile (targetPath l) with
  | .err e => ({ l with f := none }, some e)
  | .ok none => ({ l with f := some (targetPath l) }, none)
  | .ok (some sz) => ({ l with f := some (targetPath l), nbytes := sz }, none)

/-- The body of the `needCreateFile` block of RotateLogger.rotateFile:
close the current file if one is open (resetting the byte counter and the
handle), then attempt to open the now-current target. -/
def rollCreate (l : RotateLogger) (openFile : String → OpenResult) :
    RotateLogger × Option GoError :=
  createFile (if l.f ≠ none then { l with nbytes := 0, f := none } else l) openFile

/-- RotateLogger.rotateFile from rotate_logger.go (src/unnamed/part_000,
lines 102-129): the first-match-wins decision ladder — time-bucket
change, then size limit (only when the configured limit is positive),
then missing file handle, else nothing.  The int32 increment of the file
id wraps. -/
def rotateFile (l : RotateLogger) (now : GoTime) (openFile : String → OpenResult) :
    RotateLogger × Option GoError :=
  let currentFileName := getLogFileName now 0
  if l.fname ≠ currentFileName then
    rollCreate { l with fname := currentFileName, fid := 0 } openFile
  else if l.logSizeLimit > 0 ∧ l.nbytes ≥ l.logSizeLimit then
    rollCreate { l with fid := wrap32 (l.fid + 1) } openFile
  else if l.f = none then
    rollCreate l openFile
  else
    (l, none)

/-- The file/line/function triple produced by runtime.Caller plus
runtime.FuncForPC. -/
structure CallerInfo where
  file : String
  line : Int
  fn : String
deriving DecidableEq

/-- The caller-location branch at the top of Output: when runtime.Caller
reports failure the placeholders file "????", line 0 and function
"unknown" are substituted. -/
def resolveCaller : Option CallerInfo → CallerInfo
  | none => { file := "????", line := 0, fn := "unknown" }
  | some c => c

/-- Per-call environment of one Output call: the wall-clock time read at
entry, the runtime.Caller outcome, and the outcomes the operating system
gives to file opens and to the single File.Write — the write returns the
number of bytes actually written together with an optional error. -/
structure OutputEnv where
  now : GoTime
  caller : Option CallerInfo
  openFile : String → OpenResult
  writeFile : String → Int × Option GoError

/-- The record assembled in the scratch buffer by Output: the formatted
header, the message verbatim, and a line feed appended exactly when the
message is empty or its last byte is not a line feed (the byte test
s[len(s)-1] != '\n' agrees with the character test because a multi-byte
code point never ends in the line-feed byte). -/
def emitBuf (s : String) (now : GoTime) (c : CallerInfo) : String :=
  let buf := formatHeader now c.file c.line c.fn ++ s
  if s.data.isEmpty ∨ s.data.getLast? ≠ some '\n' then buf ++ "\n" else buf

/-- Result of one Output call: the sink state after the call, the error
value Output returns, and the buffer handed to File.Write (`none` when
the call returned before reaching the write step). -/
structure OutputRet where
  st : RotateLogger
  ret : Option GoError
  written : Option String

/-- RotateLogger.Output from rotate_logger.go (lines 170-212): resolve
the caller, run rotateFile on the entry timestamp — returning its error
unchanged when it fails — then assemble the record and write it once,
adding the reported written-byte count to the int64 byte counter and
returning the write error. -/
def Output (l : RotateLogger) (s : String) (e : OutputEnv) : OutputRet :=
  let c := resolveCaller e.caller
  match rotateFile l e.now e.openFile with
  | (l1, some err) => { st := l1, ret := some err, written := none }
  | (l1, none) =>
    let buf := emitBuf s e.now c
    let r := e.writeFile buf
    { st := { l1 with nbytes := wrap64 (l1.nbytes + r.1) }, ret := r.2, written := some buf }

/-- A sequence of Output calls (message and environment of each),
folded over the sink state. -/
def runOutputs (l : RotateLogger) : List (String × OutputEnv) → RotateLogger
  | [] => l
  | (s, e) :: rest => runOutputs (Output l s e).st rest

/-- Observable behavior of one leveled convenience method: whether it
invokes Output, and the os.Exit code it runs afterwards, if any. -/
structure LevelCall where
  emits : Bool
  exitCode : Option Int
deriving DecidableEq

/-- RotateLogger.Trace and RotateLogger.Tracef: Output is invoked iff
l.LogLevel() <= TRACE; no exit. -/
def RotateLogger.traceCall (l : RotateLogger) : LevelCall :=
  { emits := decide (l.level ≤ TRACE), exitCode := none }

/-- RotateLogger.Debug and RotateLogger.Debugf: Output is invoked iff
l.LogLevel() <= DEBUG; no exit. -/
def RotateLogger.debugCall (l : RotateLogger) : LevelCall :=
  { emits := decide (l.level ≤ DEBUG), exitCode := none }

/-- RotateLogger.Warn and RotateLogger.Warnf: Output is invoked iff
l.LogLevel() <= WARN; no exit. -/
def RotateLogger.warnCall (l : RotateLogger) : LevelCall :=
  { emits := decide (l.level ≤ WARN), exitCode := none }

/-- RotateLogger.Error and RotateLogger.Errorf: Output is invoked iff
l.LogLevel() <= ERROR; no exit. -/
def RotateLogger.errorCall (l : RotateLogger) : LevelCall :=
  { emits := decide (l.level ≤ ERROR), exitCode := none }

/-- RotateLogger.Info and RotateLogger.Infof: Output is invoked
unconditionally; no exit. -/
def RotateLogger.infoCall (_l : RotateLogger) : LevelCall :=
  { emits := true, exitCode := none }

/-- RotateLogger.Fatal and RotateLogger.Fatalf: Output is invoked
unconditionally, then os.Exit(1) runs. -/
def RotateLogger.fatalCall (_l : RotateLogger) : LevelCall :=
  { emits := true, exitCode := some 1 }

/-- Construction environment of NewRotateLogger: the outcome of
os.MkdirAll on the log directory, the outcome of os.Stat per path during
the candidate scan, the outcome of the file open, and the wall-clock
time read once. -/
structure NewEnv where
  now : GoTime
  mkdirErr : Option GoError
  stat : String → StatResult
  openFile : String → OpenResult

/-- The candidate scan loop of NewRotateLogger
(for i := 1; i < 100; i++): stat the candidate with suffix i; on
existence increment the adopted id (int32) and continue, on
os.IsNotExist stop with the adopted id, on any other stat error fail.
The fuel argument counts the remaining iterations. -/
def scanGo (stat : String → StatResult) (logDir : String) (now : GoTime) :
    Nat → Nat → Int → Except GoError Int
  | 0, _, fid => .ok fid
  | fuel + 1, i, fid =>
    match stat (joinPath logDir (getLogFileName now (i : Int))) with
    | .found => scanGo stat logDir now fuel (i + 1) (wrap32 (fid + 1))
    | .notExist => .ok fid
    | .err e => .error e

/-- NewRotateLogger from rotate_logger.go (lines 33-69): make the log
directory, adopt the starting file id by scanning candidates 1 through
99 of the current bucket, then open the resolved file; every error
aborts construction with no logger value. -/
def NewRotateLogger (logDir : String) (level : Int) (e : NewEnv) :
    Except GoError RotateLogger :=
  match e.mkdirErr with
  | some err => .error err
  | none =>
    let l : RotateLogger :=
      { logDir := logDir, level := level, logSizeLimit := DEFAULT_LOG_FILE_SIZE,
        f := none, fname := getLogFileName e.now 0, nbytes := 0, fid := 0 }
    match scanGo e.stat logDir e.now 99 1 0 with
    | .error err => .error err
    | .ok fid =>
      match createFile { l with fid := fid } e.openFile with
      | (_, some err) => .error err
      | (l2, none) => .ok l2

/-! Helper lemmas. -/

theorem data_append (a b : String) : (a ++ b).data = a.data ++ b.data := rfl

theorem length_append_str (a b : String) : (a ++ b).length = a.length + b.length := by
  show (a ++ b).data.length = a.data.length + b.data.length
  rw [data_append, List.length_append]

/-- C10: For every LogLevel L in {TRACE, DEBUG, WARN, ERROR, INFO,
FATAL}, looking up the string LogLevelName(L) in LogLevelMap yields L
back, and LogLevelName returns "unknown" for any value outside these
six. -/
theorem levelName_roundTrip (L : Int) :
    (L ∈ ([TRACE, DEBUG, WARN, ERROR, INFO, FATAL] : List Int) →
      LogLevelMap (LogLevelName L) = some L) ∧
    (L ∉ ([TRACE, DEBUG, WARN, ERROR, INFO, FATAL] : List Int) →
      LogLevelName L = "unknown") := by
  constructor
  · intro h
    simp only [List.mem_cons, List.not_mem_nil, or_false] at h
    rcases h with h | h | h | h | h | h <;> subst h <;> decide
  · intro h
    simp only [List.mem_cons, List.not_mem_nil, or_false, not_or] at h
    obtain ⟨h1, h2, h3, h4, h5, h6⟩ := h
    simp [LogLevelName, h1, h2, h3, h4, h5, h6]

theorem levelName_roundTrip_witness :
    ((WARN ∈ ([TRACE, DEBUG, WARN, ERROR, INFO, FATAL] : List Int)) ∧
      LogLevelMap (LogLevelName WARN) = some WARN) ∧
    (((7 : Int) ∉ ([TRACE, DEBUG, WARN, ERROR, INFO, FATAL] : List Int)) ∧
      LogLevelName 7 = "unknown") :=
  ⟨⟨by decide, (levelName_roundTrip WARN).1 (by decide)⟩,
   ⟨by decide, (levelName_roundTrip 7).2 (by decide)⟩⟩

/-- C3: For every threshold T and record severity S, a filtered leveled
call (Trace/Tracef, Debug/Debugf, Warn/Warnf, Error/Errorf) invokes the
write path iff S ≥ T, while Info/Infof and Fatal/Fatalf always invoke it
regardless of T; the fatal pair additionally terminates the process with
a non-zero exit status after emitting, regardless of threshold. -/
theorem leveled_gating (l : RotateLogger) :
    (l.traceCall.emits = true ↔ TRACE ≥ l.level) ∧
    (l.debugCall.emits = true ↔ DEBUG ≥ l.level) ∧
    (l.warnCall.emits = true ↔ WARN ≥ l.level) ∧
    (l.errorCall.emits = true ↔ ERROR ≥ l.level) ∧
    l.infoCall.emits = true ∧
    l.fatalCall.emits = true ∧
    l.traceCall.exitCode = none ∧
    l.debugCall.exitCode = none ∧
    l.warnCall.exitCode = none ∧
    l.errorCall.exitCode = none ∧
    l.infoCall.exitCode = none ∧
    l.fatalCall.exitCode = some 1 ∧
    (∃ c, l.fatalCall.exitCode = some c ∧ c ≠ 0) := by
  refine ⟨?_, ?_, ?_, ?_, rfl, rfl, rfl, rfl, rfl, rfl, rfl, rfl, 1, rfl, by decide⟩ <;>
    simp [RotateLogger.traceCall, RotateLogger.debugCall, RotateLogger.warnCall,
      RotateLogger.errorCall, ge_iff_le]

/-- C7: For every message s, the persisted record ends in exactly one
line terminator relative to s: a line feed is appended iff s is empty or
its last byte is not a line feed; a message already ending in a line
feed (including one with multiple trailing terminators) is passed
through verbatim with no extra terminator — never two are appended. -/
theorem record_terminator (s : String) (now : GoTime) (c : CallerInfo) :
    (s.data = [] ∨ s.data.getLast? ≠ some '\n' →
      emitBuf s now c = formatHeader now c.file c.line c.fn ++ s ++ "\n") ∧
    (s.data.getLast? = some '\n' →
      emitBuf s now c = formatHeader now c.file c.line c.fn ++ s) ∧
    (emitBuf s now c).data.getLast? = some '\n' := by
  by_cases h : s.data.isEmpty ∨ s.data.getLast? ≠ some '\n'
  · have hb : emitBuf s now c = formatHeader now c.file c.line c.fn ++ s ++ "\n" := by
      rw [emitBuf, if_pos h, String.append_assoc]
    refine ⟨fun _ => hb, fun hlast => ?_, ?_⟩
    · rcases h with h | h
      · have h' : s.data = [] := by simpa using h
        simp [h'] at hlast
      · exact absurd hlast h
    · rw [hb, data_append]
      have h2 : ("\n" : String).data = ['\n'] := rfl
      rw [h2]
      exact List.getLast?_concat _
  · push_neg at h
    obtain ⟨hne, hlast⟩ := h
    have hne' : s.data ≠ [] := by simpa using hne
    have hb : emitBuf s now c = formatHeader now c.file c.line c.fn ++ s := by
      rw [emitBuf, if_neg]
      push_neg
      exact ⟨hne, hlast⟩
    refine ⟨fun hc => ?_, fun _ => hb, ?_⟩
    · rcases hc with hc | hc
      · exact absurd hc hne'
      · exact absurd hlast hc
    · rw [hb, data_append]
      rw [List.getLast?_append_of_ne_nil _ hne']
      exact hlast

theorem record_terminator_witness :
    (("abc" : String).data = [] ∨ ("abc" : String).data.getLast? ≠ some '\n') ∧
    emitBuf "abc" ⟨2026, 1, 2, 3, 4, 5, 6⟩ ⟨"f.go", 1, "fn"⟩ =
      formatHeader ⟨2026, 1, 2, 3, 4, 5, 6⟩ "f.go" 1 "fn" ++ "abc" ++ "\n" ∧
    ("x\n" : String).data.getLast? = some '\n' ∧
    emitBuf "x\n" ⟨2026, 1, 2, 3, 4, 5, 6⟩ ⟨"f.go", 1, "fn"⟩ =
      formatHeader ⟨2026, 1, 2, 3, 4, 5, 6⟩ "f.go" 1 "fn" ++ "x\n" :=
  ⟨by decide, (record_terminator "abc" ⟨2026, 1, 2, 3, 4, 5, 6⟩ ⟨"f.go", 1, "fn"⟩).1 (by decide),
   by decide, (record_terminator "x\n" ⟨2026, 1, 2, 3, 4, 5, 6⟩ ⟨"f.go", 1, "fn"⟩).2.1 (by decide)⟩

/-! Branch characterizations of rotateFile, and field preservation of
createFile and rollCreate. -/

theorem createFile_fields (l : RotateLogger) (op : String → OpenResult) :
    (createFile l op).1.fname = l.fname ∧ (createFile l op).1.fid = l.fid ∧
    (createFile l op).1.logSizeLimit = l.logSizeLimit ∧
    (createFile l op).1.logDir = l.logDir ∧ (createFile l op).1.level = l.level := by
  unfold createFile
  rcases op (targetPath l) with sz | e
  · rcases sz with _ | sz <;> exact ⟨rfl, rfl, rfl, rfl, rfl⟩
  · exact ⟨rfl, rfl, rfl, rfl, rfl⟩

theorem rollCreate_fields (l : RotateLogger) (op : String → OpenResult) :
    (rollCreate l op).1.fname = l.fname ∧ (rollCreate l op).1.fid = l.fid ∧
    (rollCreate l op).1.logSizeLimit = l.logSizeLimit ∧
    (rollCreate l op).1.logDir = l.logDir ∧ (rollCreate l op).1.level = l.level := by
  unfold rollCreate
  split <;> exact createFile_fields _ op

theorem createFile_f_ok (l : RotateLogger) (op : String → OpenResult) (sz : Option Int)
    (h : op (targetPath l) = .ok sz) : (createFile l op).1.f = some (targetPath l) := by
  unfold createFile
  rw [h]
  rcases sz with _ | sz <;> rfl

theorem createFile_err (l : RotateLogger) (op : String → OpenResult) (er : GoError)
    (h : (createFile l op).2 = some er) :
    (createFile l op).1.f = none ∧ op (targetPath (createFile l op).1) = .err er := by
  unfold createFile at h ⊢
  rcases hop : op (targetPath l) with sz | e
  · rcases sz with _ | sz <;> rw [hop] at h <;> simp at h
  · rw [hop] at h
    simp only [Option.some.injEq] at h
    subst h
    refine ⟨rfl, ?_⟩
    have ht : targetPath { l with f := none } = targetPath l := rfl
    rw [ht, hop]

theorem rollCreate_err (l : RotateLogger) (op : String → OpenResult) (er : GoError)
    (h : (rollCreate l op).2 = some er) :
    (rollCreate l op).1.f = none ∧ op (targetPath (rollCreate l op).1) = .err er := by
  unfold rollCreate at h ⊢
  by_cases hf : l.f ≠ none
  · rw [if_pos hf] at h ⊢
    exact createFile_err _ op er h
  · rw [if_neg hf] at h ⊢
    exact createFile_err _ op er h

theorem rotateFile_bucket (l : RotateLogger) (now : GoTime) (op : String → OpenResult)
    (hne : l.fname ≠ getLogFileName now 0) :
    rotateFile l now op = rollCreate { l with fname := getLogFileName now 0, fid := 0 } op := by
  unfold rotateFile
  rw [if_pos hne]

theorem rotateFile_size (l : RotateLogger) (now : GoTime) (op : String → OpenResult)
    (heq : l.fname = getLogFileName now 0)
    (hsz : 0 < l.logSizeLimit ∧ l.nbytes ≥ l.logSizeLimit) :
    rotateFile l now op = rollCreate { l with fid := wrap32 (l.fid + 1) } op := by
  unfold rotateFile
  rw [if_neg (by simp [heq]), if_pos hsz]

theorem rotateFile_reopen (l : RotateLogger) (now : GoTime) (op : String → OpenResult)
    (heq : l.fname = getLogFileName now 0)
    (hns : ¬(0 < l.logSizeLimit ∧ l.nbytes ≥ l.logSizeLimit)) (hf : l.f = none) :
    rotateFile l now op = createFile l op := by
  unfold rotateFile
  rw [if_neg (by simp [heq]), if_neg hns, if_pos hf]
  unfold rollCreate
  rw [if_neg (by simp [hf])]

theorem rotateFile_noop (l : RotateLogger) (now : GoTime) (op : String → OpenResult)
    (heq : l.fname = getLogFileName now 0)
    (hns : ¬(0 < l.logSizeLimit ∧ l.nbytes ≥ l.logSizeLimit)) (hf : l.f ≠ none) :
    rotateFile l now op = (l, none) := by
  unfold rotateFile
  rw [if_neg (by simp [heq]), if_neg hns, if_neg (by simp [hf])]

/-- C1: On every Output (Emit) call of the rotating file sink, the
rotation decision is evaluated in a fixed order with first match
winning: (a) if the bucket key derived from the call's timestamp
differs from the current bucket key, roll to sequence 0 of the new
bucket; (b) else if a positive size limit is configured and the
bytes-written counter is at or above it, roll to sequence current+1 of
the same bucket; (c) else if no file is currently open, reopen the
current target file; (d) else no rotation — so a time-bucket change
always takes precedence over the size limit. -/
theorem rotation_order (l : RotateLogger) (now : GoTime) (op : String → OpenResult) :
    (l.fname ≠ getLogFileName now 0 →
      (rotateFile l now op).1.fname = getLogFileName now 0 ∧
      (rotateFile l now op).1.fid = 0 ∧
      (∀ sz, op (joinPath l.logDir (getLogFileName now 0)) = .ok sz →
        (rotateFile l now op).1.f = some (joinPath l.logDir (getLogFileName now 0)))) ∧
    (l.fname = getLogFileName now 0 → 0 < l.logSizeLimit → l.nbytes ≥ l.logSizeLimit →
      (rotateFile l now op).1.fid = wrap32 (l.fid + 1) ∧
      (rotateFile l now op).1.fname = l.fname) ∧
    (l.fname = getLogFileName now 0 → ¬(0 < l.logSizeLimit ∧ l.nbytes ≥ l.logSizeLimit) →
      l.f = none → rotateFile l now op = createFile l op) ∧
    (l.fname = getLogFileName now 0 → ¬(0 < l.logSizeLimit ∧ l.nbytes ≥ l.logSizeLimit) →
      l.f ≠ none → rotateFile l now op = (l, none)) := by
  refine ⟨fun hne => ?_, fun heq h1 h2 => ?_, fun heq hns hf => rotateFile_reopen l now op heq hns hf,
    fun heq hns hf => rotateFile_noop l now op heq hns hf⟩
  · rw [rotateFile_bucket l now op hne]
    set l' : RotateLogger := { l with fname := getLogFileName now 0, fid := 0 } with hl'
    have hfields := rollCreate_fields l' op
    refine ⟨hfields.1, hfields.2.1, fun sz hsz => ?_⟩
    have htp : targetPath l' = joinPath l.logDir (getLogFileName now 0) := by
      simp [targetPath, fileNameOf, hl']
    unfold rollCreate
    split
    · have htp2 : targetPath { l' with nbytes := 0, f := none } = targetPath l' := rfl
      rw [← htp2] at htp
      rw [← htp] at hsz ⊢
      exact createFile_f_ok _ op sz hsz
    · rw [← htp] at hsz ⊢
      exact createFile_f_ok _ op sz hsz
  · rw [rotateFile_size l now op heq ⟨h1, h2⟩]
    have hfields := rollCreate_fields { l with fid := wrap32 (l.fid + 1) } op
    exact ⟨hfields.2.1, hfields.1⟩

/-- Concrete sink for the rotation-order witness: within bucket
2026010203, size limit 10, 12 bytes already written. -/
def wRotLogger : RotateLogger :=
  { logDir := "d", level := 0, logSizeLimit := 10, f := some "d/2026010203.log",
    fname := "2026010203.log", nbytes := 12, fid := 0 }

/-- Timestamp inside bucket 2026010203. -/
def wRotTime : GoTime := ⟨2026, 1, 2, 3, 0, 0, 0⟩

/-- Open outcome that always succeeds on an empty file. -/
def wRotOpen : String → OpenResult := fun _ => OpenResult.ok (some 0)

theorem rotation_order_witness :
    wRotLogger.fname = getLogFileName wRotTime 0 ∧
    0 < wRotLogger.logSizeLimit ∧
    wRotLogger.nbytes ≥ wRotLogger.logSizeLimit ∧
    ((rotateFile wRotLogger wRotTime wRotOpen).1.fid = wrap32 (wRotLogger.fid + 1) ∧
      (rotateFile wRotLogger wRotTime wRotOpen).1.fname = wRotLogger.fname) :=
  ⟨by decide, by decide, by decide,
    (rotation_order wRotLogger wRotTime wRotOpen).2.1 (by decide) (by decide) (by decide)⟩

/-! Output-level helper lemmas. -/

theorem output_rotateErr (l : RotateLogger) (s : String) (e : OutputEnv) (er : GoError)
    (h : (rotateFile l e.now e.openFile).2 = some er) :
    Output l s e =
      { st := (rotateFile l e.now e.openFile).1, ret := some er, written := none } := by
  have hr : rotateFile l e.now e.openFile = ((rotateFile l e.now e.openFile).1, some er) := by
    rcases hrr : rotateFile l e.now e.openFile with ⟨l1, e1⟩
    rw [hrr] at h
    simp only at h
    simp [h]
  unfold Output
  rw [hr]

theorem output_ok (l : RotateLogger) (s : String) (e : OutputEnv)
    (h : (rotateFile l e.now e.openFile).2 = none) :
    Output l s e =
      { st := { (rotateFile l e.now e.openFile).1 with
          nbytes := wrap64 ((rotateFile l e.now e.openFile).1.nbytes +
            (e.writeFile (emitBuf s e.now (resolveCaller e.caller))).1) },
        ret := (e.writeFile (emitBuf s e.now (resolveCaller e.caller))).2,
        written := some (emitBuf s e.now (resolveCaller e.caller)) } := by
  have hr : rotateFile l e.now e.openFile = ((rotateFile l e.now e.openFile).1, none) := by
    rcases hrr : rotateFile l e.now e.openFile with ⟨l1, e1⟩
    rw [hrr] at h
    simp only at h
    simp [h]
  unfold Output
  rw [hr]

theorem wrap32_eq (n : Int) (h1 : 0 ≤ n) (h2 : n < 2 ^ 31) : wrap32 n = n := by
  unfold wrap32
  omega

theorem wrap64_eq (n : Int) (h1 : -(2 ^ 63) ≤ n) (h2 : n < 2 ^ 63) : wrap64 n = n := by
  unfold wrap64
  omega

/-- C5: For every Output call that reaches the write step, the
bytes-written counter is increased by exactly the number of bytes the
underlying write reports as actually written — even when the write
returns an error or is partial — so size-based rotation stays consistent
with actual on-disk size. -/
theorem write_counter (l : RotateLogger) (s : String) (e : OutputEnv)
    (h : (rotateFile l e.now e.openFile).2 = none) :
    (Output l s e).written = some (emitBuf s e.now (resolveCaller e.caller)) ∧
    (Output l s e).st.nbytes = wrap64 ((rotateFile l e.now e.openFile).1.nbytes +
      (e.writeFile (emitBuf s e.now (resolveCaller e.caller))).1) ∧
    (-(2 ^ 63) ≤ (rotateFile l e.now e.openFile).1.nbytes +
        (e.writeFile (emitBuf s e.now (resolveCaller e.caller))).1 →
      (rotateFile l e.now e.openFile).1.nbytes +
          (e.writeFile (emitBuf s e.now (resolveCaller e.caller))).1 < 2 ^ 63 →
      (Output l s e).st.nbytes = (rotateFile l e.now e.openFile).1.nbytes +
        (e.writeFile (emitBuf s e.now (resolveCaller e.caller))).1) ∧
    (Output l s e).ret = (e.writeFile (emitBuf s e.now (resolveCaller e.caller))).2 := by
  rw [output_ok l s e h]
  exact ⟨rfl, rfl, fun h1 h2 => wrap64_eq _ h1 h2, rfl⟩

/-- Concrete sink for the write-counter witness: in-bucket, under the
size limit, with an open file. -/
def wCntLogger : RotateLogger :=
  { logDir := "d", level := 0, logSizeLimit := 100, f := some "d/2026010203.log",
    fname := "2026010203.log", nbytes := 7, fid := 0 }

/-- Call environment whose write reports 5 bytes written and a partial
write error. -/
def wCntEnv : OutputEnv :=
  { now := ⟨2026, 1, 2, 3, 0, 0, 0⟩, caller := some ⟨"m.go", 4, "main"⟩,
    openFile := fun _ => OpenResult.ok (some 0),
    writeFile := fun _ => (5, some "disk full") }

theorem write_counter_witness :
    (rotateFile wCntLogger wCntEnv.now wCntEnv.openFile).2 = none ∧
    (Output wCntLogger "hello" wCntEnv).st.nbytes =
      (rotateFile wCntLogger wCntEnv.now wCntEnv.openFile).1.nbytes + 5 ∧
    (Output wCntLogger "hello" wCntEnv).ret = some "disk full" :=
  ⟨by decide,
    (write_counter wCntLogger "hello" wCntEnv (by decide)).2.2.1 (by decide) (by decide),
    (write_counter wCntLogger "hello" wCntEnv (by decide)).2.2.2⟩

theorem rotateFile_err (l : RotateLogger) (now : GoTime) (op : String → OpenResult)
    (er : GoError) (h : (rotateFile l now op).2 = some er) :
    (rotateFile l now op).1.f = none ∧
    (rotateFile l now op).1.fname = getLogFileName now 0 ∧
    op (targetPath (rotateFile l now op).1) = .err er := by
  by_cases hne : l.fname ≠ getLogFileName now 0
  · rw [rotateFile_bucket l now op hne] at h ⊢
    have hfn := (rollCreate_fields { l with fname := getLogFileName now 0, fid := 0 } op).1
    have he := rollCreate_err _ op er h
    exact ⟨he.1, hfn, he.2⟩
  · push_neg at hne
    by_cases hsz : 0 < l.logSizeLimit ∧ l.nbytes ≥ l.logSizeLimit
    · rw [rotateFile_size l now op hne hsz] at h ⊢
      have hfn := (rollCreate_fields { l with fid := wrap32 (l.fid + 1) } op).1
      have he := rollCreate_err _ op er h
      refine ⟨he.1, ?_, he.2⟩
      rw [hfn]
      exact hne
    · by_cases hf : l.f = none
      · rw [rotateFile_reopen l now op hne hsz hf] at h ⊢
        have hfn := (createFile_fields l op).1
        have he := createFile_err _ op er h
        refine ⟨he.1, ?_, he.2⟩
        rw [hfn]
        exact hne
      · rw [rotateFile_noop l now op hne hsz (by simpa using hf)] at h
        simp at h

/-- C4: If opening the new target file during a roll fails, Output
returns that error to its caller without formatting the record or
writing any bytes, and the sink is left with no open file and with
bucket key and sequence id already pointing at the failed target, so
that the next Output call retries opening the same target file. -/
theorem rotation_failure (l : RotateLogger) (s : String) (e : OutputEnv) (er : GoError)
    (h : (rotateFile l e.now e.openFile).2 = some er) :
    Output l s e =
      { st := (rotateFile l e.now e.openFile).1, ret := some er, written := none } ∧
    (rotateFile l e.now e.openFile).1.f = none ∧
    (rotateFile l e.now e.openFile).1.fname = getLogFileName e.now 0 ∧
    e.openFile (targetPath (rotateFile l e.now e.openFile).1) = .err er ∧
    (∀ (now' : GoTime) (op' : String → OpenResult),
      (rotateFile l e.now e.openFile).1.fname = getLogFileName now' 0 →
      ¬(0 < (rotateFile l e.now e.openFile).1.logSizeLimit ∧
          (rotateFile l e.now e.openFile).1.nbytes ≥
            (rotateFile l e.now e.openFile).1.logSizeLimit) →
      rotateFile (rotateFile l e.now e.openFile).1 now' op' =
        createFile (rotateFile l e.now e.openFile).1 op') ∧
    (∀ (op' : String → OpenResult) (sz : Option Int),
      op' (targetPath (rotateFile l e.now e.openFile).1) = .ok sz →
      (createFile (rotateFile l e.now e.openFile).1 op').1.f =
        some (targetPath (rotateFile l e.now e.openFile).1)) := by
  have he := rotateFile_err l e.now e.openFile er h
  refine ⟨output_rotateErr l s e er h, he.1, he.2.1, he.2.2, ?_, ?_⟩
  · intro now' op' hb hns
    exact rotateFile_reopen _ now' op' hb hns he.1
  · intro op' sz hsz
    exact createFile_f_ok _ op' sz hsz

/-- Concrete sink for the rotation-failure witness: its bucket key is
stale relative to the call timestamp. -/
def wFailLogger : RotateLogger :=
  { logDir := "d", level := 0, logSizeLimit := 100, f := some "d/2026010203.log",
    fname := "2026010203.log", nbytes := 7, fid := 0 }

/-- Call environment whose timestamp is in the next hour bucket and
whose file opens always fail. -/
def wFailEnv : OutputEnv :=
  { now := ⟨2026, 1, 2, 4, 0, 0, 0⟩, caller := some ⟨"m.go", 4, "main"⟩,
    openFile := fun _ => OpenResult.err "open denied",
    writeFile := fun _ => (0, none) }

theorem rotation_failure_witness :
    (rotateFile wFailLogger wFailEnv.now wFailEnv.openFile).2 = some "open denied" ∧
    Output wFailLogger "x" wFailEnv =
      { st := (rotateFile wFailLogger wFailEnv.now wFailEnv.openFile).1,
        ret := some "open denied", written := none } ∧
    (rotateFile wFailLogger wFailEnv.now wFailEnv.openFile).1.f = none :=
  ⟨by decide,
    (rotation_failure wFailLogger "x" wFailEnv "open denied" (by decide)).1,
    (rotation_failure wFailLogger "x" wFailEnv "open denied" (by decide)).2.1⟩

/-! Same-bucket step and run lemmas. -/

theorem rotateFile_same (l : RotateLogger) (now : GoTime) (op : String → OpenResult)
    (hb : l.fname = getLogFileName now 0) :
    (rotateFile l now op).1.fname = l.fname ∧
    (rotateFile l now op).1.logSizeLimit = l.logSizeLimit ∧
    (rotateFile l now op).1.logDir = l.logDir ∧
    ((rotateFile l now op).1.fid = l.fid ∨
      ((rotateFile l now op).1.fid = wrap32 (l.fid + 1) ∧
        0 < l.logSizeLimit ∧ l.nbytes ≥ l.logSizeLimit)) := by
  by_cases hsz : 0 < l.logSizeLimit ∧ l.nbytes ≥ l.logSizeLimit
  · rw [rotateFile_size l now op hb hsz]
    have hf := rollCreate_fields { l with fid := wrap32 (l.fid + 1) } op
    exact ⟨hf.1, hf.2.2.1, hf.2.2.2.1, Or.inr ⟨hf.2.1, hsz⟩⟩
  · by_cases hfn : l.f = none
    · rw [rotateFile_reopen l now op hb hsz hfn]
      have hf := createFile_fields l op
      exact ⟨hf.1, hf.2.2.1, hf.2.2.2.1, Or.inl hf.2.1⟩
    · rw [rotateFile_noop l now op hb hsz (by simpa using hfn)]
      exact ⟨rfl, rfl, rfl, Or.inl rfl⟩

theorem output_st_fields (l : RotateLogger) (s : String) (e : OutputEnv) :
    (Output l s e).st.fname = (rotateFile l e.now e.openFile).1.fname ∧
    (Output l s e).st.fid = (rotateFile l e.now e.openFile).1.fid ∧
    (Output l s e).st.logSizeLimit = (rotateFile l e.now e.openFile).1.logSizeLimit ∧
    (Output l s e).st.logDir = (rotateFile l e.now e.openFile).1.logDir := by
  rcases hr : (rotateFile l e.now e.openFile).2 with _ | er
  · rw [output_ok l s e hr]
    exact ⟨rfl, rfl, rfl, rfl⟩
  · rw [output_rotateErr l s e er hr]
    exact ⟨rfl, rfl, rfl, rfl⟩

theorem output_step_same (l : RotateLogger) (s : String) (e : OutputEnv)
    (hb : getLogFileName e.now 0 = l.fname) :
    (Output l s e).st.fname = l.fname ∧
    (Output l s e).st.logSizeLimit = l.logSizeLimit ∧
    ((Output l s e).st.fid = l.fid ∨
      ((Output l s e).st.fid = wrap32 (l.fid + 1) ∧
        0 < l.logSizeLimit ∧ l.nbytes ≥ l.logSizeLimit)) := by
  have hst := output_st_fields l s e
  have hsame := rotateFile_same l e.now e.openFile hb.symm
  refine ⟨by rw [hst.1, hsame.1], by rw [hst.2.2.1, hsame.2.1], ?_⟩
  rcases hsame.2.2.2 with h | h
  · exact Or.inl (by rw [hst.2.1, h])
  · exact Or.inr ⟨by rw [hst.2.1, h.1], h.2⟩

theorem run_nolimit : ∀ (calls : List (String × OutputEnv)) (l : RotateLogger),
    l.logSizeLimit ≤ 0 → (∀ p ∈ calls, getLogFileName (Prod.snd p).now 0 = l.fname) →
    (runOutputs l calls).fid = l.fid ∧ (runOutputs l calls).fname = l.fname ∧
    (runOutputs l calls).logSizeLimit = l.logSizeLimit
  | [], _, _, _ => ⟨rfl, rfl, rfl⟩
  | (s, e) :: rest, l, hlim, hb => by
    have hb0 : getLogFileName e.now 0 = l.fname := hb (s, e) (List.mem_cons_self _ _)
    have hstep := output_step_same l s e hb0
    have hfid : (Output l s e).st.fid = l.fid := by
      rcases hstep.2.2 with h | h
      · exact h
      · exact absurd h.2.1 (by omega)
    have ih := run_nolimit rest (Output l s e).st
      (by rw [hstep.2.1]; exact hlim)
      (fun p hp => by rw [hstep.1]; exact hb p (List.mem_cons_of_mem _ hp))
    show (runOutputs (Output l s e).st rest).fid = l.fid ∧
      (runOutputs (Output l s e).st rest).fname = l.fname ∧
      (runOutputs (Output l s e).st rest).logSizeLimit = l.logSizeLimit
    exact ⟨by rw [ih.1, hfid], by rw [ih.2.1, hstep.1], by rw [ih.2.2, hstep.2.1]⟩

/-- C2: If the configured size limit is non-positive, size-based
rotation is disabled: for every sequence of Output calls whose
timestamps stay within one time bucket, the sink never rolls to a new
sequence id no matter how many bytes are written, leaving only
time-bucket rotation active. -/
theorem size_rotation_disabled (l : RotateLogger) (calls : List (String × OutputEnv))
    (hlim : l.logSizeLimit ≤ 0)
    (hb : ∀ p ∈ calls, getLogFileName (Prod.snd p).now 0 = l.fname) :
    (runOutputs l calls).fid = l.fid ∧ (runOutputs l calls).fname = l.fname :=
  ⟨(run_nolimit calls l hlim hb).1, (run_nolimit calls l hlim hb).2.1⟩

/-- Concrete sink for the size-limit-disabled witness: limit 0, a
gigabyte already written. -/
def wDisLogger : RotateLogger :=
  { logDir := "d", level := 0, logSizeLimit := 0, f := some "d/2026010203.log",
    fname := "2026010203.log", nbytes := 1000000000, fid := 0 }

/-- In-bucket environment whose write reports a gigabyte written. -/
def wDisEnv : OutputEnv :=
  { now := ⟨2026, 1, 2, 3, 0, 0, 0⟩, caller := some ⟨"m.go", 4, "main"⟩,
    openFile := fun _ => OpenResult.ok (some 0),
    writeFile := fun _ => (1000000000, none) }

theorem size_rotation_disabled_witness :
    wDisLogger.logSizeLimit ≤ 0 ∧
    (∀ p ∈ [("a", wDisEnv), ("b", wDisEnv), ("c", wDisEnv)],
      getLogFileName (Prod.snd p).now 0 = wDisLogger.fname) ∧
    (runOutputs wDisLogger [("a", wDisEnv), ("b", wDisEnv), ("c", wDisEnv)]).fid =
        wDisLogger.fid ∧
    (runOutputs wDisLogger [("a", wDisEnv), ("b", wDisEnv), ("c", wDisEnv)]).fname =
      wDisLogger.fname :=
  ⟨by decide, by decide,
    (size_rotation_disabled wDisLogger [("a", wDisEnv), ("b", wDisEnv), ("c", wDisEnv)]
      (by decide) (by decide)).1,
    (size_rotation_disabled wDisLogger [("a", wDisEnv), ("b", wDisEnv), ("c", wDisEnv)]
      (by decide) (by decide)).2⟩

theorem runOutputs_append : ∀ (a b : List (String × OutputEnv)) (l : RotateLogger),
    runOutputs l (a ++ b) = runOutputs (runOutputs l a) b
  | [], _, _ => rfl
  | (s, e) :: rest, b, l => runOutputs_append rest b (Output l s e).st

theorem run_same_bounds : ∀ (calls : List (String × OutputEnv)) (l : RotateLogger),
    (∀ p ∈ calls, getLogFileName (Prod.snd p).now 0 = l.fname) → 0 ≤ l.fid →
    l.fid + calls.length < 2 ^ 31 →
    l.fid ≤ (runOutputs l calls).fid ∧
    (runOutputs l calls).fid ≤ l.fid + calls.length ∧
    (runOutputs l calls).fname = l.fname
  | [], _, _, _, _ => ⟨le_refl _, by simp [runOutputs], rfl⟩
  | (s, e) :: rest, l, hb, h0, hcap => by
    have hlen : (((s, e) :: rest).length : Int) = (rest.length : Int) + 1 := by
      simp [List.length_cons]
    have hb0 : getLogFileName e.now 0 = l.fname := hb (s, e) (List.mem_cons_self _ _)
    have hstep := output_step_same l s e hb0
    have hfid : (Output l s e).st.fid = l.fid ∨ (Output l s e).st.fid = l.fid + 1 := by
      rcases hstep.2.2 with h | h
      · exact Or.inl h
      · refine Or.inr ?_
        rw [h.1, wrap32_eq (l.fid + 1) (by omega) (by omega)]
    have h0' : 0 ≤ (Output l s e).st.fid := by rcases hfid with h | h <;> omega
    have hcap' : (Output l s e).st.fid + rest.length < 2 ^ 31 := by
      rw [hlen] at hcap
      rcases hfid with h | h <;> omega
    have ih := run_same_bounds rest (Output l s e).st
      (fun p hp => by rw [hstep.1]; exact hb p (List.mem_cons_of_mem _ hp)) h0' hcap'
    show l.fid ≤ (runOutputs (Output l s e).st rest).fid ∧
      (runOutputs (Output l s e).st rest).fid ≤ l.fid + (((s, e) :: rest).length : Int) ∧
      (runOutputs (Output l s e).st rest).fname = l.fname
    refine ⟨?_, ?_, by rw [ih.2.2, hstep.1]⟩
    · rcases hfid with h | h <;> omega
    · rw [hlen]
      rcases hfid with h | h <;> omega

/-- C9: For the lifetime of a rotating file sink, within any one time
bucket the sequence id never decreases across Output calls (each
size-triggered roll sets it to current+1), and it is set to 0 only when
the bucket key changes to a new bucket; sequence ids within a bucket
are never reused downward. -/
theorem seq_monotone (l : RotateLogger) (calls1 calls2 : List (String × OutputEnv))
    (hb : ∀ p ∈ calls1 ++ calls2, getLogFileName (Prod.snd p).now 0 = l.fname)
    (h0 : 0 ≤ l.fid) (hcap : l.fid + (calls1 ++ calls2).length < 2 ^ 31) :
    (runOutputs l calls1).fid ≤ (runOutputs l (calls1 ++ calls2)).fid ∧
    (∀ s e, getLogFileName e.now 0 = l.fname → 0 < l.logSizeLimit →
      l.nbytes ≥ l.logSizeLimit → (Output l s e).st.fid = wrap32 (l.fid + 1)) ∧
    (∀ s e, (Output l s e).st.fid = 0 → l.fid ≠ 0 →
      getLogFileName e.now 0 ≠ l.fname) := by
  have hlen : ((calls1 ++ calls2).length : Int) =
      (calls1.length : Int) + (calls2.length : Int) := by
    simp [List.length_append]
  refine ⟨?_, ?_, ?_⟩
  · have hb1 : ∀ p ∈ calls1, getLogFileName (Prod.snd p).now 0 = l.fname :=
      fun p hp => hb p (List.mem_append_left _ hp)
    have r1 := run_same_bounds calls1 l hb1 h0 (by rw [hlen] at hcap; omega)
    have hb2 : ∀ p ∈ calls2,
        getLogFileName (Prod.snd p).now 0 = (runOutputs l calls1).fname :=
      fun p hp => by rw [r1.2.2]; exact hb p (List.mem_append_right _ hp)
    have r2 := run_same_bounds calls2 (runOutputs l calls1) hb2 (by omega)
      (by rw [hlen] at hcap; omega)
    rw [runOutputs_append]
    exact r2.1
  · intro s e hbkt h1 h2
    rw [(output_st_fields l s e).2.1,
      rotateFile_size l e.now e.openFile hbkt.symm ⟨h1, h2⟩]
    exact (rollCreate_fields { l with fid := wrap32 (l.fid + 1) } e.openFile).2.1
  · intro s e hz hnz heq
    have hstep := output_step_same l s e heq
    rcases hstep.2.2 with h | h
    · rw [hz] at h
      exact hnz h.symm
    · rw [hz] at h
      have hcapl : l.fid < 2 ^ 31 := by
        have hlnn : (0 : Int) ≤ ((calls1 ++ calls2).length : Int) := by positivity
        omega
      have hw := h.1.symm
      unfold wrap32 at hw
      omega

/-- Same-bucket environment for the monotonicity witness; the size
limit of the witness sink is exceeded, so each call rolls. -/
def wMonEnv : OutputEnv :=
  { now := ⟨2026, 1, 2, 3, 0, 0, 0⟩, caller := some ⟨"m.go", 4, "main"⟩,
    openFile := fun _ => OpenResult.ok (some 20),
    writeFile := fun _ => (3, none) }

/-- Concrete sink for the monotonicity witness: at its size limit. -/
def wMonLogger : RotateLogger :=
  { logDir := "d", level := 0, logSizeLimit := 10, f := some "d/2026010203.log",
    fname := "2026010203.log", nbytes := 20, fid := 4 }

theorem seq_monotone_witness :
    (∀ p ∈ [("a", wMonEnv)] ++ [("b", wMonEnv)],
      getLogFileName (Prod.snd p).now 0 = wMonLogger.fname) ∧
    0 ≤ wMonLogger.fid ∧
    wMonLogger.fid + (([("a", wMonEnv)] ++ [("b", wMonEnv)]).length : Int) < 2 ^ 31 ∧
    (runOutputs wMonLogger [("a", wMonEnv)]).fid ≤
      (runOutputs wMonLogger ([("a", wMonEnv)] ++ [("b", wMonEnv)])).fid :=
  ⟨by decide, by decide, by decide,
    (seq_monotone wMonLogger [("a", wMonEnv)] [("b", wMonEnv)]
      (by decide) (by decide) (by decide)).1⟩

/-! Construction lemmas for C6. -/

theorem getLogFileName_zero (t : GoTime) : getLogFileName t 0 = logBucketName t := by
  unfold getLogFileName
  rw [if_neg (by omega)]

theorem targetPath_bucket (l : RotateLogger) (now : GoTime)
    (h : l.fname = getLogFileName now 0) :
    targetPath l = joinPath l.logDir (getLogFileName now l.fid) := by
  unfold targetPath fileNameOf
  rw [h, getLogFileName_zero]
  by_cases hp : l.fid > 0
  · rw [if_pos hp]
    unfold getLogFileName
    rw [if_pos hp]
  · rw [if_neg hp]
    unfold getLogFileName
    rw [if_neg hp]

theorem createFile_ok_some (l : RotateLogger) (op : String → OpenResult) (sz : Int)
    (h : op (targetPath l) = .ok (some sz)) :
    createFile l op = ({ l with f := some (targetPath l), nbytes := sz }, none) := by
  unfold createFile
  rw [h]

theorem createFile_err_eq (l : RotateLogger) (op : String → OpenResult) (er : GoError)
    (h : op (targetPath l) = .err er) :
    createFile l op = ({ l with f := none }, some er) := by
  unfold createFile
  rw [h]

theorem scanGo_adopt_aux (stat : String → StatResult) (logDir : String) (now : GoTime)
    (k : Nat) (hk : k ≤ 99)
    (hstat : ∀ i : Nat, i ≤ 99 → 1 ≤ i →
      stat (joinPath logDir (getLogFileName now (i : Int))) =
        (if i ≤ k then StatResult.found else StatResult.notExist)) :
    ∀ (fuel i : Nat), fuel + i = 100 → 1 ≤ i → i ≤ k + 1 →
      scanGo stat logDir now fuel i ((i - 1 : Nat) : Int) = .ok ((k : Nat) : Int)
  | 0, i, hfi, h1, hik => by
    have hik' : i - 1 = k := by omega
    rw [hik']
    rfl
  | fuel + 1, i, hfi, h1, hik => by
    have hi99 : i ≤ 99 := by omega
    show scanGo stat logDir now (fuel + 1) i ((i - 1 : Nat) : Int) = .ok ((k : Nat) : Int)
    unfold scanGo
    rw [hstat i hi99 h1]
    by_cases hik' : i ≤ k
    · rw [if_pos hik']
      have hw : wrap32 (((i - 1 : Nat) : Int) + 1) = (((i + 1) - 1 : Nat) : Int) := by
        rw [wrap32_eq (((i - 1 : Nat) : Int) + 1) (by omega) (by omega)]
        omega
      rw [hw]
      exact scanGo_adopt_aux stat logDir now k hk hstat fuel (i + 1)
        (by omega) (by omega) (by omega)
    · rw [if_neg hik']
      have hik'' : i - 1 = k := by omega
      rw [hik'']

theorem scanGo_err_aux (stat : String → StatResult) (logDir : String) (now : GoTime)
    (j : Nat) (er : GoError) (hj99 : j ≤ 99)
    (hfound : ∀ m : Nat, m < j → 1 ≤ m →
      stat (joinPath logDir (getLogFileName now (m : Int))) = .found)
    (herr : stat (joinPath logDir (getLogFileName now (j : Int))) = .err er) :
    ∀ (fuel i : Nat), fuel + i = 100 → 1 ≤ i → i ≤ j →
      scanGo stat logDir now fuel i ((i - 1 : Nat) : Int) = .error er
  | 0, i, hfi, h1, hij => absurd hij (by omega)
  | fuel + 1, i, hfi, h1, hij => by
    show scanGo stat logDir now (fuel + 1) i ((i - 1 : Nat) : Int) = .error er
    unfold scanGo
    by_cases hlt : i < j
    · rw [hfound i hlt h1]
      have hw : wrap32 (((i - 1 : Nat) : Int) + 1) = (((i + 1) - 1 : Nat) : Int) := by
        rw [wrap32_eq (((i - 1 : Nat) : Int) + 1) (by omega) (by omega)]
        omega
      rw [hw]
      exact scanGo_err_aux stat logDir now j er hj99 hfound herr fuel (i + 1)
        (by omega) (by omega) (by omega)
    · have hieq : i = j := by omega
      rw [hieq, herr]

/-- C6: NewRotateLogger creates the log directory (with parents) if
absent, scans candidate filenames of the current bucket upward with a
bounded scan of fewer than 100 candidates to adopt the highest
pre-existing sequence id as the starting sequence (so a restarted
process appends to the prior run's last segment rather than overwriting
it), opens that file in create-or-append mode seeding the byte counter
from its on-disk size, and returns an error with no logger value if
directory creation, a scan stat, or the file open fails for a reason
other than non-existence. -/
theorem construction (logDir : String) (level : Int) (e : NewEnv) :
    (∀ er, e.mkdirErr = some er → NewRotateLogger logDir level e = .error er) ∧
    (e.mkdirErr = none → ∀ (j : Nat) (er : GoError), 1 ≤ j → j ≤ 99 →
      (∀ m : Nat, m < j → 1 ≤ m →
        e.stat (joinPath logDir (getLogFileName e.now (m : Int))) = .found) →
      e.stat (joinPath logDir (getLogFileName e.now (j : Int))) = .err er →
      NewRotateLogger logDir level e = .error er) ∧
    (e.mkdirErr = none → ∀ k : Nat, k ≤ 99 →
      (∀ i : Nat, i ≤ 99 → 1 ≤ i →
        e.stat (joinPath logDir (getLogFileName e.now (i : Int))) =
          (if i ≤ k then StatResult.found else StatResult.notExist)) →
      (∀ er, e.openFile (joinPath logDir (getLogFileName e.now (k : Int))) = .err er →
        NewRotateLogger logDir level e = .error er) ∧
      (∀ sz : Int,
        e.openFile (joinPath logDir (getLogFileName e.now (k : Int))) = .ok (some sz) →
        NewRotateLogger logDir level e = .ok
          { logDir := logDir, level := level, logSizeLimit := DEFAULT_LOG_FILE_SIZE,
            f := some (joinPath logDir (getLogFileName e.now (k : Int))),
            fname := getLogFileName e.now 0, nbytes := sz, fid := (k : Int) })) := by
  refine ⟨fun er hm => ?_, fun hm j er h1 h99 hfound herr => ?_, fun hm k hk hstat => ?_⟩
  · unfold NewRotateLogger
    rw [hm]
  · have hscan : scanGo e.stat logDir e.now 99 1 0 = .error er :=
      scanGo_err_aux e.stat logDir e.now j er h99 hfound herr 99 1
        (by omega) (by omega) h1
    unfold NewRotateLogger
    rw [hm]
    simp only [hscan]
  · have hscan : scanGo e.stat logDir e.now 99 1 0 = .ok ((k : Nat) : Int) :=
      scanGo_adopt_aux e.stat logDir e.now k hk hstat 99 1
        (by omega) (by omega) (by omega)
    have htp : targetPath
        { logDir := logDir, level := level, logSizeLimit := DEFAULT_LOG_FILE_SIZE,
          f := none, fname := getLogFileName e.now 0, nbytes := 0,
          fid := (k : Int) } =
        joinPath logDir (getLogFileName e.now (k : Int)) :=
      targetPath_bucket _ e.now rfl
    constructor
    · intro er hop
      have hcf := createFile_err_eq
        { logDir := logDir, level := level, logSizeLimit := DEFAULT_LOG_FILE_SIZE,
          f := none, fname := getLogFileName e.now 0, nbytes := 0, fid := (k : Int) }
        e.openFile er (by rw [htp]; exact hop)
      unfold NewRotateLogger
      rw [hm]
      simp only [hscan, hcf]
    · intro sz hop
      have hcf := createFile_ok_some
        { logDir := logDir, level := level, logSizeLimit := DEFAULT_LOG_FILE_SIZE,
          f := none, fname := getLogFileName e.now 0, nbytes := 0, fid := (k : Int) }
        e.openFile sz (by rw [htp]; exact hop)
      unfold NewRotateLogger
      rw [hm]
      simp only [hscan, hcf, htp]

/-- Construction environment for the witness: candidates 1 and 2 of
bucket 2026010203 already exist, candidate 3 does not, and the open
reports 55 bytes on disk. -/
def wNewEnv : NewEnv :=
  { now := ⟨2026, 1, 2, 3, 0, 0, 0⟩, mkdirErr := none,
    stat := fun p =>
      if p = "dir/2026010203.log.1" ∨ p = "dir/2026010203.log.2" then .found else .notExist,
    openFile := fun _ => OpenResult.ok (some 55) }

theorem construction_witness :
    wNewEnv.mkdirErr = none ∧
    (∀ i : Nat, i ≤ 99 → 1 ≤ i →
      wNewEnv.stat (joinPath "dir" (getLogFileName wNewEnv.now (i : Int))) =
        (if i ≤ 2 then StatResult.found else StatResult.notExist)) ∧
    NewRotateLogger "dir" 0 wNewEnv = .ok
      { logDir := "dir", level := 0, logSizeLimit := DEFAULT_LOG_FILE_SIZE,
        f := some (joinPath "dir" (getLogFileName wNewEnv.now ((2 : Nat) : Int))),
        fname := getLogFileName wNewEnv.now 0, nbytes := 55, fid := ((2 : Nat) : Int) } :=
  ⟨rfl, by decide,
    ((construction "dir" 0 wNewEnv).2.2 rfl 2 (by omega) (by decide)).2 55 rfl⟩

/-! Header formatting lemmas for C8. -/

/-- The basename rule as the spec states it: the text after the final
path separator — the longest '/'-free suffix of the path (the whole
string when it has no separator). -/
def basenameSpec (file : String) : String :=
  String.mk ((file.data.reverse.takeWhile (fun c => c ≠ '/')).reverse)

theorem lastSlashIdx_nonneg (l : List Char) : 0 ≤ lastSlashIdx l ↔ '/' ∈ l := by
  induction l with
  | nil => simp [lastSlashIdx]
  | cons c cs ih =>
    by_cases hr : lastSlashIdx cs ≥ 0
    · have hm : '/' ∈ cs := ih.mp hr
      simp only [lastSlashIdx, if_pos hr, List.mem_cons]
      constructor
      · intro _
        exact Or.inr hm
      · intro _
        omega
    · simp only [lastSlashIdx, if_neg hr]
      by_cases hc : c = '/'
      · simp [hc]
      · have hm : '/' ∉ cs := fun h => hr (ih.mpr h)
        simp [hc, hm]
        intro h
        exact hc h.symm

theorem takeWhile_append_stop {α : Type} (p : α → Bool) (xs ys : List α)
    (h : ∃ x ∈ xs, p x = false) : (xs ++ ys).takeWhile p = xs.takeWhile p := by
  induction xs with
  | nil =>
    rcases h with ⟨x, hx, _⟩
    cases hx
  | cons a xs ih =>
    cases hpa : p a with
    | false => simp [List.takeWhile_cons, hpa]
    | true =>
      simp only [List.cons_append, List.takeWhile_cons, hpa]
      have h' : ∃ x ∈ xs, p x = false := by
        rcases h with ⟨x, hx, hpx⟩
        rcases List.mem_cons.mp hx with hxa | hx'
        · subst hxa
          rw [hpa] at hpx
          cases hpx
        · exact ⟨x, hx', hpx⟩
      rw [ih h']

theorem takeWhile_append_all {α : Type} (p : α → Bool) (xs ys : List α)
    (h : ∀ x ∈ xs, p x = true) : (xs ++ ys).takeWhile p = xs ++ ys.takeWhile p := by
  induction xs with
  | nil => simp
  | cons a xs ih =>
    have hpa : p a = true := h a (List.mem_cons_self _ _)
    simp only [List.cons_append, List.takeWhile_cons, hpa, if_true]
    rw [ih (fun x hx => h x (List.mem_cons_of_mem _ hx))]

theorem takeWhile_all {α : Type} (p : α → Bool) (xs : List α)
    (h : ∀ x ∈ xs, p x = true) : xs.takeWhile p = xs := by
  have h2 := takeWhile_append_all p xs [] h
  simpa using h2

theorem slashDrop (l : List Char) :
    l.drop ((lastSlashIdx l + 1).toNat) =
      (l.reverse.takeWhile (fun c => c ≠ '/')).reverse := by
  induction l with
  | nil => rfl
  | cons c cs ih =>
    by_cases hr : lastSlashIdx cs ≥ 0
    · have hm : '/' ∈ cs := (lastSlashIdx_nonneg cs).mp hr
      have hidx : lastSlashIdx (c :: cs) = lastSlashIdx cs + 1 := by
        simp only [lastSlashIdx, if_pos hr]
      rw [hidx]
      have ht : (lastSlashIdx cs + 1 + 1).toNat = (lastSlashIdx cs + 1).toNat + 1 := by
        omega
      rw [ht, List.drop_succ_cons, ih, List.reverse_cons,
        takeWhile_append_stop _ _ _ ⟨'/', List.mem_reverse.mpr hm, by simp⟩]
    · have hnm : '/' ∉ cs := fun h => hr ((lastSlashIdx_nonneg cs).mpr h)
      have hall : ∀ x ∈ cs.reverse, (fun c => decide (c ≠ '/')) x = true := by
        intro x hx
        simp only [decide_eq_true_eq]
        intro hxs
        subst hxs
        exact hnm (List.mem_reverse.mp hx)
      by_cases hc : c = '/'
      · have hidx : lastSlashIdx (c :: cs) = 0 := by
          simp only [lastSlashIdx, if_neg hr, if_pos hc]
        rw [hidx]
        have h1 : ((0 : Int) + 1).toNat = 1 := rfl
        rw [h1]
        have h2 : (c :: cs).drop 1 = cs := rfl
        rw [h2, List.reverse_cons, takeWhile_append_all _ _ _ hall]
        subst hc
        simp
      · have hidx : lastSlashIdx (c :: cs) = -1 := by
          simp only [lastSlashIdx, if_neg hr, if_neg hc]
        rw [hidx]
        have h1 : ((-1 : Int) + 1).toNat = 0 := rfl
        rw [h1, List.drop_zero, List.reverse_cons, takeWhile_append_all _ _ _ hall]
        have hone : List.takeWhile (fun x => decide (x ≠ '/')) [c] = [c] := by
          simp [List.takeWhile_cons, hc]
        rw [hone]
        simp

theorem basename_eq (file : String) : goBasename file = basenameSpec file :=
  congrArg String.mk (slashDrop file.data)

theorem natReprAux_len : ∀ (w : Nat), 0 < w → ∀ (fuel n : Nat), n < 10 ^ w →
    (natReprAux fuel n).length ≤ w
  | 0, hw, _, _, _ => absurd hw (by omega)
  | w + 1, _, fuel, n, hn => by
    cases fuel with
    | zero => simp [natReprAux]
    | succ fuel =>
      unfold natReprAux
      by_cases h10 : n < 10
      · rw [if_pos h10]
        simp
      · rw [if_neg h10]
        rw [List.length_append, List.length_singleton]
        have hw1 : 0 < w := by
          by_contra hw0
          have hw00 : w = 0 := by omega
          subst hw00
          norm_num at hn
          omega
        have hdiv : n / 10 < 10 ^ w := by
          rw [Nat.div_lt_iff_lt_mul (by norm_num : 0 < 10)]
          calc n < 10 ^ (w + 1) := hn
            _ = 10 ^ w * 10 := by ring
        have hlen := natReprAux_len w hw1 fuel (n / 10) hdiv
        omega

theorem natRepr_len (w n : Nat) (hw : 0 < w) (hn : n < 10 ^ w) :
    (natRepr n).length ≤ w :=
  natReprAux_len w hw (n + 1) n hn

theorem pad0_len (w n : Nat) (hw : 0 < w) (hn : n < 10 ^ w) : (pad0 w n).length = w := by
  unfold pad0 padGo
  rw [length_append_str]
  have h1 : (String.mk (List.replicate (w - (natRepr n).length) '0')).length =
      w - (natRepr n).length := by
    show (List.replicate (w - (natRepr n).length) '0').length = w - (natRepr n).length
    rw [List.length_replicate]
  rw [h1]
  have h2 := natRepr_len w n hw hn
  omega

/-- C8: For every timestamp t, source file path, line number, and
function name, formatHeader produces exactly the prefix
YYYYMMDD HH:MM:SS.UUUUUU|basename(file):line|function| — date fields
zero-padded to widths 4/2/2 and time fields to 2/2/2, microseconds as 6
zero-padded digits obtained by truncating (not rounding) nanoseconds via
integer division by 1000, the file reduced to the text after the final
'/' (the whole string if it contains none), and the line rendered as a
plain decimal; when caller-location resolution fails, the placeholders
file "????", line 0, and function "unknown" are used and the write still
proceeds exactly as for a resolved caller with those values. -/
theorem header_format (t : GoTime) (file : String) (line : Int) (fn : String)
    (hy : t.year ≤ 9999) (hmo : t.month ≤ 99) (hd : t.day ≤ 99) (hh : t.hour ≤ 99)
    (hmi : t.minute ≤ 99) (hs : t.second ≤ 99) (hn : t.nanosec < 1000000000) :
    formatHeader t file line fn =
      pad0 4 t.year ++ pad0 2 t.month ++ pad0 2 t.day ++ " " ++ pad0 2 t.hour ++ ":" ++
        pad0 2 t.minute ++ ":" ++ pad0 2 t.second ++ "." ++ pad0 6 (t.nanosec / 1000) ++
        "|" ++ basenameSpec file ++ ":" ++ intRepr line ++ "|" ++ fn ++ "|" ∧
    (pad0 4 t.year).length = 4 ∧ (pad0 2 t.month).length = 2 ∧ (pad0 2 t.day).length = 2 ∧
    (pad0 2 t.hour).length = 2 ∧ (pad0 2 t.minute).length = 2 ∧
    (pad0 2 t.second).length = 2 ∧ (pad0 6 (t.nanosec / 1000)).length = 6 ∧
    (∀ n' : Nat, n' / 1000 = t.nanosec / 1000 →
      formatHeader { t with nanosec := n' } file line fn = formatHeader t file line fn) ∧
    resolveCaller none = { file := "????", line := 0, fn := "unknown" } ∧
    (∀ (l : RotateLogger) (s : String) (eo : OutputEnv), eo.caller = none →
      Output l s eo =
        Output l s { eo with caller := some { file := "????", line := 0, fn := "unknown" } }) := by
  refine ⟨?_, pad0_len 4 t.year (by omega) (by omega), pad0_len 2 t.month (by omega) (by omega),
    pad0_len 2 t.day (by omega) (by omega), pad0_len 2 t.hour (by omega) (by omega),
    pad0_len 2 t.minute (by omega) (by omega), pad0_len 2 t.second (by omega) (by omega),
    pad0_len 6 (t.nanosec / 1000) (by omega) (by omega), ?_, rfl, ?_⟩
  · unfold formatHeader
    rw [basename_eq]
  · intro n' hq
    simp only [formatHeader]
    rw [hq]
  · intro l s eo hc
    cases eo with
    | mk enow ecaller eopen ewrite =>
      simp only at hc
      subst hc
      rfl

theorem header_format_witness :
    (2026 ≤ 9999 ∧ 1 ≤ 99 ∧ 2 ≤ 99 ∧ 3 ≤ 99 ∧ 4 ≤ 99 ∧ 5 ≤ 99 ∧ 123456789 < 1000000000) ∧
    formatHeader ⟨2026, 1, 2, 3, 4, 5, 123456789⟩ "a/b/main.go" 42 "main.main" =
      pad0 4 2026 ++ pad0 2 1 ++ pad0 2 2 ++ " " ++ pad0 2 3 ++ ":" ++
        pad0 2 4 ++ ":" ++ pad0 2 5 ++ "." ++ pad0 6 (123456789 / 1000) ++
        "|" ++ basenameSpec "a/b/main.go" ++ ":" ++ intRepr 42 ++ "|" ++ "main.main" ++ "|" :=
  ⟨by omega,
    (header_format ⟨2026, 1, 2, 3, 4, 5, 123456789⟩ "a/b/main.go" 42 "main.main"
      (by decide) (by decide) (by decide) (by decide) (by decide) (by decide) (by decide)).1⟩

end Ylog
